import Mathlib

/-!
Verification of the channel-video-extractor harvest pipeline
(src/channel_video_extractor/videos.py) against its specification.

The Python source is shallowly embedded: pure helpers become Lean
functions; the on-disk cache becomes an explicit map from file paths to
file contents; exceptions become `Except Unit`; the JSON snapshot and
the Solr index become lists of records threaded through the save calls.
-/

namespace VideoExtractor

/-! ## Cache store (videos.py lines 32-33, 92-112) -/

/-- Constant `CACHE_EXPIRATION_SECONDS = 60 * 60 * 8` from videos.py. -/
def CACHE_EXPIRATION_SECONDS : Int := 60 * 60 * 8

/-- Constant `CACHE_FOLDER = "cache"` from videos.py. -/
def CACHE_FOLDER : String := "cache"

/-- `identifier.replace("/", "_")` for the single-character pattern:
replacing every occurrence of one character is a character map. -/
def replaceChar (pat repl : Char) (s : String) : String :=
  ⟨s.data.map (fun c => if c = pat then repl else c)⟩

/-- `get_cache_file_path` from videos.py: sanitize the identifier by
replacing `/` and `:` with `_`, then join under the cache folder with a
`.pkl` suffix. -/
def get_cache_file_path (identifier : String) : String :=
  let safe_filename := replaceChar ':' '_' (replaceChar '/' '_' identifier)
  CACHE_FOLDER ++ "/" ++ safe_filename ++ ".pkl"

/-- Contents of one cache file: missing, unreadable/undeserializable, or a
pickled `(cached_time, data)` pair. -/
inductive CacheFile (α : Type) where
  | absent
  | corrupt
  | entry (cachedTime : Int) (payload : α)
deriving Repr

/-- The cache directory: contents of each file path. -/
def Fs (α : Type) : Type := String → CacheFile α

/-- `load_from_cache` from videos.py. `os.path.exists` false gives `None`;
a corrupt file makes `pickle.load` raise, which the function does not
catch (`Except.error`); a readable entry is returned only while
`time.time() - cached_time < CACHE_EXPIRATION_SECONDS`. -/
def load_from_cache {α : Type} (fs : Fs α) (now : Int) (identifier : String) :
    Except Unit (Option α) :=
  match fs (get_cache_file_path identifier) with
  | .absent => .ok none
  | .corrupt => .error ()
  | .entry cached_time data =>
      if now - cached_time < CACHE_EXPIRATION_SECONDS then .ok (some data)
      else .ok none

/-- `save_to_cache` from videos.py: overwrite the cache file with the
pair of the current time and the data. -/
def save_to_cache {α : Type} (fs : Fs α) (now : Int) (identifier : String) (data : α) :
    Fs α :=
  fun p => if p = get_cache_file_path identifier then .entry now data else fs p

/-! ## Records and the normalizer (videos.py lines 147-149, 203-221) -/

/-- The view object produced by `generate_view_object`, with the
`channelId` / `channelTitle` / `userEmail` keys that `video.update`
attaches later in `extract_subscriptions` (absent = `none`). Every raw
field that may be missing in the input is an `Option`, `none` standing
for the Python `None` sentinel stored under the key. -/
structure VideoRecord where
  id : String
  url : Option String
  title : Option String
  description : Option String
  view_count : Option Int
  duration : Option Int
  thumbnails : List String
  release_timestamp : Option Int
  channel_is_verified : Option Bool
  live_status : Option String
  channelId : Option String
  channelTitle : Option String
  userEmail : Option String
deriving DecidableEq, Repr

/-- One raw thumbnail descriptor: its `url` key, present or absent. -/
structure ThumbDesc where
  url : Option String
deriving DecidableEq, Repr

/-- The raw `thumbnails` value of an entry: key absent, present but not a
Python list, or a list of descriptors. -/
inductive ThumbField where
  | absent
  | nonList
  | list (thumbs : List ThumbDesc)
deriving DecidableEq, Repr

/-- `normalize_thumbnails` from videos.py: on a list, the comprehension
keeps descriptors whose `url` key is present and projects that value, in
order; any non-list value yields `[]`. -/
def normalize_thumbnails : ThumbField → List String
  | .list thumbs => thumbs.filterMap (fun t => t.url)
  | _ => []

/-- `sanitize_solr_query` from videos.py: wrap in double quotes when the
value starts with a `-` (`value.startswith('-')` for the one-character
prefix is a check on the first character). -/
def sanitize_solr_query (value : String) : String :=
  if value.data.head? = some '-' then "\"" ++ value ++ "\"" else value

/-- A raw yt-dlp entry: the `_type` discriminator, the fields read by
`generate_view_object`, and the nested `entries` list of a playlist. -/
inductive RawEntry where
  | mk (type_ : Option String) (id : Option String) (url : Option String)
       (title : Option String) (description : Option String)
       (view_count : Option Int) (duration : Option Int)
       (thumbnails : ThumbField) (release_timestamp : Option Int)
       (channel_is_verified : Option Bool) (live_status : Option String)
       (entries : List RawEntry)

def RawEntry.type_ : RawEntry → Option String
  | .mk t _ _ _ _ _ _ _ _ _ _ _ => t

def RawEntry.id : RawEntry → Option String
  | .mk _ i _ _ _ _ _ _ _ _ _ _ => i

def RawEntry.url : RawEntry → Option String
  | .mk _ _ u _ _ _ _ _ _ _ _ _ => u

def RawEntry.title : RawEntry → Option String
  | .mk _ _ _ t _ _ _ _ _ _ _ _ => t

def RawEntry.description : RawEntry → Option String
  | .mk _ _ _ _ d _ _ _ _ _ _ _ => d

def RawEntry.view_count : RawEntry → Option Int
  | .mk _ _ _ _ _ v _ _ _ _ _ _ => v

def RawEntry.duration : RawEntry → Option Int
  | .mk _ _ _ _ _ _ d _ _ _ _ _ => d

def RawEntry.thumbnails : RawEntry → ThumbField
  | .mk _ _ _ _ _ _ _ th _ _ _ _ => th

def RawEntry.release_timestamp : RawEntry → Option Int
  | .mk _ _ _ _ _ _ _ _ r _ _ _ => r

def RawEntry.channel_is_verified : RawEntry → Option Bool
  | .mk _ _ _ _ _ _ _ _ _ c _ _ => c

def RawEntry.live_status : RawEntry → Option String
  | .mk _ _ _ _ _ _ _ _ _ _ l _ => l

def RawEntry.entries : RawEntry → List RawEntry
  | .mk _ _ _ _ _ _ _ _ _ _ _ es => es

/-- `generate_view_object` from videos.py. When the entry has no `id`,
`sanitize_solr_query(None)` raises `AttributeError` (`None` has no
`startswith`), so the call fails; otherwise every declared key is set,
absent raw fields passing through as the `None` sentinel. -/
def generate_view_object (entry : RawEntry) : Except Unit VideoRecord :=
  match entry.id with
  | none => .error ()
  | some i =>
      .ok { id := sanitize_solr_query i
            url := entry.url
            title := entry.title
            description := entry.description
            view_count := entry.view_count
            duration := entry.duration
            thumbnails := normalize_thumbnails entry.thumbnails
            release_timestamp := entry.release_timestamp
            channel_is_verified := entry.channel_is_verified
            live_status := entry.live_status
            channelId := none
            channelTitle := none
            userEmail := none }

/-! ## Channel extractor (videos.py lines 224-247) -/

/-- The raw listing returned by `ydl.extract_info` (or the cache): its
`entries` list, `info_dict.get('entries', [])` giving `[]` when absent. -/
structure InfoDict where
  entries : List RawEntry

/-- A Python loop that appends `f e` for each element, where `f` may
raise: the first exception aborts the whole loop. -/
def mapEx (f : RawEntry → Except Unit VideoRecord) :
    List RawEntry → Except Unit (List VideoRecord)
  | [] => .ok []
  | e :: rest =>
      match f e with
      | .error u => .error u
      | .ok v =>
          match mapEx f rest with
          | .error u => .error u
          | .ok vs => .ok (v :: vs)

/-- The body of one iteration of the entry loop in `extract_videos`:
for a `playlist`-typed entry append a view object per nested child, and
independently, for a `url`-typed entry append its own view object. -/
def processOne (e : RawEntry) : Except Unit (List VideoRecord) :=
  let fromPlaylist : Except Unit (List VideoRecord) :=
    if e.type_ = some "playlist" then mapEx generate_view_object e.entries
    else .ok []
  match fromPlaylist with
  | .error u => .error u
  | .ok vs =>
      if e.type_ = some "url" then
        match generate_view_object e with
        | .error u => .error u
        | .ok v => .ok (vs ++ [v])
      else .ok vs

/-- The entry loop of `extract_videos` over `info_dict['entries']`. -/
def processEntries : List RawEntry → Except Unit (List VideoRecord)
  | [] => .ok []
  | e :: rest =>
      match processOne e with
      | .error u => .error u
      | .ok vs =>
          match processEntries rest with
          | .error u => .error u
          | .ok rest2 => .ok (vs ++ rest2)

/-- `extract_videos` from videos.py. `fetch` stands for the
`yt_dlp.YoutubeDL(...).extract_info` collaborator, which may raise.
The surrounding try/except turns any exception into `([], ...)`, keeping
whatever cache write already happened; the cache is consulted first, a
falsy (absent or expired) cached value triggers a fetch followed by
`save_to_cache` before the entry loop runs. -/
def extract_videos (fetch : String → Except Unit InfoDict) (fs : Fs InfoDict)
    (now : Int) (channel_url : String) : List VideoRecord × Fs InfoDict :=
  match load_from_cache fs now channel_url with
  | .error _ => ([], fs)
  | .ok cached =>
      match cached with
      | some info =>
          match processEntries info.entries with
          | .ok vids => (vids, fs)
          | .error _ => ([], fs)
      | none =>
          match fetch channel_url with
          | .error _ => ([], fs)
          | .ok info =>
              let fs2 := save_to_cache fs now channel_url info
              match processEntries info.entries with
              | .ok vids => (vids, fs2)
              | .error _ => ([], fs2)

/-! ## Repositories (videos.py lines 39-89) -/

/-- `JsonRepository.save` from videos.py, on the JSON snapshot it keeps
in `self.filename` (the file contents; a missing file loads as `[]`).
Returns the new snapshot and whether a write was performed: the incoming
batch is filtered to identifiers not yet in the snapshot, and only a
non-empty filtered batch is appended and written back. -/
def JsonRepository.save (store : List VideoRecord) (data : List VideoRecord) :
    List VideoRecord × Bool :=
  let existing_ids := store.map (fun item => item.id)
  let unique_data := data.filter (fun item => !(decide (item.id ∈ existing_ids)))
  if unique_data.isEmpty then (store, false)
  else (store ++ unique_data, true)

/-- The Solr search `id:<id>` issued by `_deduplicate_solr`: whether the
index holds a document with that identifier. -/
def SolrRepository.found (store : List VideoRecord) (i : String) : Bool :=
  store.any (fun d => d.id = i)

/-- `SolrRepository._deduplicate_solr` from videos.py: keep only the
items whose identifier search returns no documents. All searches run
against the index state before the add. -/
def SolrRepository.deduplicate_solr (store : List VideoRecord)
    (data : List VideoRecord) : List VideoRecord :=
  data.filter (fun item => !(SolrRepository.found store item.id))

/-- Modelled from the spec: the Solr engine itself is not part of src/.
Per the spec, each VideoRecord is a document, `id` must be unique, and
`solr.add` is an upsert — a document with a matching identifier is
replaced in place, otherwise the document is appended to the index. -/
def SolrRepository.addDoc (store : List VideoRecord) (doc : VideoRecord) :
    List VideoRecord :=
  if SolrRepository.found store doc.id then
    store.map (fun d => if d.id = doc.id then doc else d)
  else store ++ [doc]

/-- `solr.add(unique_data)`: upsert each document in order. -/
def SolrRepository.add (store : List VideoRecord) (docs : List VideoRecord) :
    List VideoRecord :=
  docs.foldl SolrRepository.addDoc store

/-- `SolrRepository.save` from videos.py (with the engine configured):
deduplicate against the index, then add only a non-empty remainder.
Returns the new index and whether an add was issued. -/
def SolrRepository.save (store : List VideoRecord) (data : List VideoRecord) :
    List VideoRecord × Bool :=
  let unique_data := SolrRepository.deduplicate_solr store data
  if unique_data.isEmpty then (store, false)
  else (SolrRepository.add store unique_data, true)

/-! ## Subscription enumerator (videos.py lines 152-198) -/

/-- One subscription item as read from a page:
`sub["snippet"]["resourceId"]["channelId"]` and `sub["snippet"]["title"]`. -/
structure Subscription where
  channelId : String
  channelTitle : String
deriving DecidableEq, Repr

/-- `channel_url = f"https://www.youtube.com/channel/{channel_id}"`. -/
def channel_url_of (channelId : String) : String :=
  "https://www.youtube.com/channel/" ++ channelId

/-- `video.update({...})` in the subscription loop: attach the channel
and user fields to a view object. -/
def attach_channel (channelId channelTitle userEmail : String)
    (v : VideoRecord) : VideoRecord :=
  { v with channelId := some channelId
           channelTitle := some channelTitle
           userEmail := some userEmail }

/-- One response of `youtube_api.subscriptions().list(...)`: its `items`
and its optional `nextPageToken`. -/
structure SubPage where
  items : List Subscription
  nextPageToken : Option String

/-- The inner per-subscription loop of `extract_subscriptions`, run with
the JSON repository: extract the videos of each channel, attach the
channel and user fields, and save the batch; the snapshot and the cache
directory are threaded through. -/
def processSubs (fetch : String → Except Unit InfoDict) (user_email : String)
    (now : Int) : List Subscription → List VideoRecord × Fs InfoDict →
    List VideoRecord × Fs InfoDict
  | [], sf => sf
  | sub :: rest, (store, fs) =>
      let r := extract_videos fetch fs now (channel_url_of sub.channelId)
      let videos := r.1.map (attach_channel sub.channelId sub.channelTitle user_email)
      let store2 := (JsonRepository.save store videos).1
      processSubs fetch user_email now rest (store2, r.2)

/-- The pagination loop of `extract_subscriptions`, driven by the page
sequence the provider serves to successive list calls. Each iteration
issues one list call (consuming the next page), processes its items, and
stops when the response carries no `nextPageToken`. The result counts
the list calls made and carries the final snapshot and cache. The `[]`
case is unreachable while a token is pending and is reported as zero
further calls. -/
def extract_subscriptions (fetch : String → Except Unit InfoDict)
    (user_email : String) (now : Int) :
    List SubPage → List VideoRecord × Fs InfoDict →
    Nat × List VideoRecord × Fs InfoDict
  | [], sf => (0, sf.1, sf.2)
  | page :: rest, sf =>
      let sf2 := processSubs fetch user_email now page.items sf
      match page.nextPageToken with
      | none => (1, sf2.1, sf2.2)
      | some _ =>
          let r := extract_subscriptions fetch user_email now rest sf2
          (r.1 + 1, r.2.1, r.2.2)

/-! ## CLI (videos.py lines 249-271) -/

/-- The externally visible steps of `cli`, in order. `authenticate`
stands for `authenticate_youtube()`, which runs the OAuth flow against
the identity provider. -/
inductive CliEvent where
  | authenticate
  | useSolrRepo
  | useJsonRepo (path : String)
  | abortMissingFlags
  | runExtraction
deriving DecidableEq, Repr

/-- The trace of `cli(output, solr)` from videos.py: authentication runs
first, then the repository branch — `if solr` takes priority, `elif
output` requires a truthy (non-empty) path, and otherwise the function
logs an error and returns. -/
def cli (output : Option String) (solr : Bool) : List CliEvent :=
  CliEvent.authenticate ::
    (if solr then [CliEvent.useSolrRepo, CliEvent.runExtraction]
     else
       match output with
       | some p =>
           if p = "" then [CliEvent.abortMissingFlags]
           else [CliEvent.useJsonRepo p, CliEvent.runExtraction]
       | none => [CliEvent.abortMissingFlags])

/-! ## Spec-side definitions (for refinement comparisons) -/

/-- From the words of the spec, for comparison with the code: the
extractor flattens entries typed `playlist` by recursing exactly one
level into their children, takes entries typed `url` as-is, and ignores
every entry of any other type. -/
def specSelect (e : RawEntry) : List RawEntry :=
  if e.type_ = some "playlist" then e.entries
  else if e.type_ = some "url" then [e]
  else []

/-- The spec selection over a whole raw listing. -/
def specFlatten : List RawEntry → List RawEntry
  | [] => []
  | e :: rest => specSelect e ++ specFlatten rest

/-- From the words of the spec, for comparison with the code: project a
sequence of thumbnail descriptors to the ordered sequence of their `url`
sub-fields, dropping descriptors lacking a URL. -/
def specThumbProjection : List ThumbDesc → List String
  | [] => []
  | t :: rest =>
      match t.url with
      | some u => u :: specThumbProjection rest
      | none => specThumbProjection rest

/-! ## Concrete fixtures -/

/-- A record with the given identifier and title, everything else absent. -/
def simpleRec (i : String) (t : Option String) : VideoRecord :=
  { id := i, url := none, title := t, description := none, view_count := none
    duration := none, thumbnails := [], release_timestamp := none
    channel_is_verified := none, live_status := none, channelId := none
    channelTitle := none, userEmail := none }

/-- A `url`-typed raw entry with the given identifier, no other fields. -/
def urlEntry (i : String) : RawEntry :=
  .mk (some "url") (some i) none none none none none .absent none none none []

/-- A `playlist`-typed raw entry with the given children. -/
def playlistEntry (children : List RawEntry) : RawEntry :=
  .mk (some "playlist") none none none none none none .absent none none none children

/-- An entry of an unrecognized type. -/
def otherEntry : RawEntry :=
  .mk (some "webpage") (some "ignored") none none none none none .absent none none none []

/-- The listing of the entry-type filtering scenario: one playlist with
two nested url children and one entry of an unrecognized type. -/
def demoListing : List RawEntry :=
  [playlistEntry [urlEntry "v1", urlEntry "v2"], otherEntry]

/-- Two concrete batches with overlapping identifier sets. -/
def wb1 : List VideoRecord := [simpleRec "a" none, simpleRec "b" none]

def wb2 : List VideoRecord := [simpleRec "b" (some "x"), simpleRec "c" none]

/-- A raw entry with a hostile identifier, a thumbnail list with one
descriptor lacking a url, and every optional field missing. -/
def hostileEntry : RawEntry :=
  .mk (some "url") (some "-x") none none none none none
    (.list [⟨some "u1"⟩, ⟨none⟩, ⟨some "u2"⟩]) none none none []

/-- The three subscriptions of the end-to-end scenario. -/
def subA : Subscription := ⟨"chA", "Channel A"⟩

def subB : Subscription := ⟨"chB", "Channel B"⟩

def subC : Subscription := ⟨"chC", "Channel C"⟩

/-- The extraction collaborator of the end-to-end scenario: it raises
for channel B and returns one url entry for channels A and C. -/
def demoFetch : String → Except Unit InfoDict := fun u =>
  if u = channel_url_of "chB" then .error ()
  else if u = channel_url_of "chA" then .ok ⟨[urlEntry "vidA"]⟩
  else if u = channel_url_of "chC" then .ok ⟨[urlEntry "vidC"]⟩
  else .ok ⟨[]⟩

/-- An empty cache directory. -/
def emptyFs : Fs InfoDict := fun _ => .absent

/-- A cache directory in which every file is unreadable. -/
def corruptFs : Fs InfoDict := fun _ => .corrupt

/-- A small concrete raw listing used as a cache payload. -/
def demoInfo : InfoDict := ⟨[urlEntry "p"]⟩

/-- The identifier column of a store or batch. -/
def storeIds (l : List VideoRecord) : List String := l.map (fun r => r.id)

/-! ## Helper lemmas -/

theorem storeIds_append (a b : List VideoRecord) :
    storeIds (a ++ b) = storeIds a ++ storeIds b :=
  List.map_append _ a b

/-- `JsonRepository.save` always returns the snapshot extended by the
filtered batch (the empty filtered batch adding nothing). -/
theorem json_save_fst (store data : List VideoRecord) :
    (JsonRepository.save store data).1
      = store ++ data.filter (fun item => !(decide (item.id ∈ storeIds store))) := by
  show (if (data.filter (fun item => !(decide (item.id ∈ storeIds store)))).isEmpty
        then (store, false)
        else (store ++ data.filter (fun item => !(decide (item.id ∈ storeIds store))), true)).1
      = _
  cases hc : (data.filter (fun item => !(decide (item.id ∈ storeIds store)))).isEmpty
  · simp
  · simp [List.isEmpty_iff.mp hc]

/-- Identifiers of a batch filtered to unseen identifiers. -/
theorem mem_storeIds_filter_not_mem (l : List VideoRecord) (s : List String)
    (x : String) :
    (x ∈ storeIds (l.filter (fun a => !(decide (a.id ∈ s)))))
      ↔ (x ∈ storeIds l ∧ x ∉ s) := by
  simp only [storeIds, List.mem_map, List.mem_filter, Bool.not_eq_true',
    decide_eq_false_iff_not]
  constructor
  · rintro ⟨a, ⟨ha, hna⟩, rfl⟩
    exact ⟨⟨a, ha, rfl⟩, hna⟩
  · rintro ⟨⟨a, ha, rfl⟩, hx⟩
    exact ⟨a, ⟨ha, hx⟩, rfl⟩

/-- A JSON save contributes exactly the union of identifiers. -/
theorem mem_storeIds_json_save (store data : List VideoRecord) (x : String) :
    x ∈ storeIds (JsonRepository.save store data).1
      ↔ x ∈ storeIds store ∨ x ∈ storeIds data := by
  rw [json_save_fst, storeIds_append, List.mem_append, mem_storeIds_filter_not_mem]
  by_cases hx : x ∈ storeIds store
  · simp [hx]
  · simp [hx]

/-- A JSON save preserves nodup identifiers when the batch has nodup
identifiers. -/
theorem nodup_storeIds_json_save (store data : List VideoRecord)
    (hs : (storeIds store).Nodup) (hd : (storeIds data).Nodup) :
    (storeIds (JsonRepository.save store data).1).Nodup := by
  rw [json_save_fst, storeIds_append, List.nodup_append]
  refine ⟨hs, ?_, ?_⟩
  · exact hd.sublist ((List.filter_sublist data).map _)
  · intro x hxs hxf
    exact ((mem_storeIds_filter_not_mem data (storeIds store) x).mp hxf).2 hxs

/-- A JSON save keeps every record already in the snapshot. -/
theorem json_save_keeps (store data : List VideoRecord) (r : VideoRecord)
    (h : r ∈ store) : r ∈ (JsonRepository.save store data).1 := by
  rw [json_save_fst]
  exact List.mem_append_left _ h

/-- After a JSON save, every identifier of the batch is stored. -/
theorem json_save_covers (store data : List VideoRecord) (r : VideoRecord)
    (h : r ∈ data) : r.id ∈ storeIds (JsonRepository.save store data).1 := by
  rw [mem_storeIds_json_save]
  exact Or.inr (List.mem_map.mpr ⟨r, h, rfl⟩)

/-- The existence query answers membership in the identifier column. -/
theorem solr_found_iff (store : List VideoRecord) (i : String) :
    SolrRepository.found store i = true ↔ i ∈ storeIds store := by
  simp only [SolrRepository.found, List.any_eq_true, decide_eq_true_eq, storeIds,
    List.mem_map]

/-- Upserting a document with a fresh identifier appends it. -/
theorem solr_addDoc_fresh (store : List VideoRecord) (doc : VideoRecord)
    (h : doc.id ∉ storeIds store) :
    SolrRepository.addDoc store doc = store ++ [doc] := by
  have hf : SolrRepository.found store doc.id = false := by
    rw [Bool.eq_false_iff]
    intro hc
    exact h ((solr_found_iff store doc.id).mp hc)
  simp [SolrRepository.addDoc, hf]

/-- An upsert of a present identifier leaves the identifier column
unchanged. -/
theorem solr_addDoc_ids_present (store : List VideoRecord) (doc : VideoRecord)
    (h : SolrRepository.found store doc.id = true) :
    storeIds (SolrRepository.addDoc store doc) = storeIds store := by
  simp only [SolrRepository.addDoc, h, if_pos, storeIds, List.map_map]
  refine List.map_congr_left ?_
  intro d _
  by_cases hid : d.id = doc.id
  · simp [hid, Function.comp]
  · simp [hid, Function.comp]

/-- Identifiers after one upsert. -/
theorem mem_storeIds_addDoc (store : List VideoRecord) (doc : VideoRecord)
    (x : String) :
    x ∈ storeIds (SolrRepository.addDoc store doc)
      ↔ x ∈ storeIds store ∨ x = doc.id := by
  cases hf : SolrRepository.found store doc.id
  · have hnm : doc.id ∉ storeIds store := by
      intro hc
      rw [(solr_found_iff store doc.id).mpr hc] at hf
      cases hf
    rw [solr_addDoc_fresh store doc hnm, storeIds_append, List.mem_append]
    simp [storeIds]
  · rw [solr_addDoc_ids_present store doc hf]
    have hm : doc.id ∈ storeIds store := (solr_found_iff store doc.id).mp hf
    constructor
    · exact Or.inl
    · rintro (h | rfl)
      · exact h
      · exact hm

/-- Identifiers after an add batch. -/
theorem mem_storeIds_add (docs : List VideoRecord) :
    ∀ (store : List VideoRecord) (x : String),
      x ∈ storeIds (SolrRepository.add store docs)
        ↔ x ∈ storeIds store ∨ x ∈ storeIds docs := by
  induction docs with
  | nil =>
      intro store x
      simp [SolrRepository.add, storeIds]
  | cons d rest ih =>
      intro store x
      show x ∈ storeIds (SolrRepository.add (SolrRepository.addDoc store d) rest) ↔ _
      rw [ih, mem_storeIds_addDoc]
      simp [storeIds, or_assoc]

/-- Adding docs with fresh, pairwise-distinct identifiers appends them. -/
theorem solr_add_fresh (docs : List VideoRecord) :
    ∀ (store : List VideoRecord),
      (storeIds docs).Nodup →
      (∀ doc ∈ docs, doc.id ∉ storeIds store) →
      SolrRepository.add store docs = store ++ docs := by
  induction docs with
  | nil =>
      intro store _ _
      simp [SolrRepository.add]
  | cons d rest ih =>
      intro store hn hfresh
      have hcons : d.id ∉ storeIds rest ∧ (storeIds rest).Nodup := by
        simpa [storeIds, List.nodup_cons] using hn
      have hd : d.id ∉ storeIds store := hfresh d (List.mem_cons_self d rest)
      show SolrRepository.add (SolrRepository.addDoc store d) rest = _
      rw [solr_addDoc_fresh store d hd]
      rw [ih (store ++ [d]) hcons.2 ?_]
      · simp
      · intro doc hdoc
        rw [storeIds_append, List.mem_append]
        rintro (h | h)
        · exact hfresh doc (List.mem_cons_of_mem d hdoc) h
        · have hde : doc.id = d.id := by simpa [storeIds] using h
          exact hcons.1 (hde ▸ List.mem_map.mpr ⟨doc, hdoc, rfl⟩)

/-- A stored record survives an upsert of a doc with a different
identifier. -/
theorem solr_addDoc_keeps (store : List VideoRecord) (doc r : VideoRecord)
    (hr : r ∈ store) (hne : r.id ≠ doc.id) :
    r ∈ SolrRepository.addDoc store doc := by
  unfold SolrRepository.addDoc
  by_cases hf : SolrRepository.found store doc.id = true
  · rw [if_pos hf]
    exact List.mem_map.mpr ⟨r, hr, by simp [hne]⟩
  · rw [if_neg hf]
    exact List.mem_append_left _ hr

/-- A stored record whose identifier collides with no incoming doc
survives the whole add. -/
theorem solr_add_keeps (docs : List VideoRecord) :
    ∀ (store : List VideoRecord) (r : VideoRecord),
      r ∈ store → (∀ doc ∈ docs, doc.id ≠ r.id) →
      r ∈ SolrRepository.add store docs := by
  induction docs with
  | nil =>
      intro store r hr _
      exact hr
  | cons d rest ih =>
      intro store r hr hne
      show r ∈ SolrRepository.add (SolrRepository.addDoc store d) rest
      refine ih _ r ?_ ?_
      · exact solr_addDoc_keeps store d r hr
          (fun h => hne d (List.mem_cons_self d rest) h.symm)
      · intro doc hdoc
        exact hne doc (List.mem_cons_of_mem d hdoc)

/-- Identifiers of the deduplicated batch. -/
theorem mem_storeIds_dedup (store data : List VideoRecord) (x : String) :
    x ∈ storeIds (SolrRepository.deduplicate_solr store data)
      ↔ x ∈ storeIds data ∧ x ∉ storeIds store := by
  simp only [SolrRepository.deduplicate_solr, storeIds, List.mem_map,
    List.mem_filter, Bool.not_eq_true']
  constructor
  · rintro ⟨a, ⟨ha, hna⟩, rfl⟩
    refine ⟨⟨a, ha, rfl⟩, ?_⟩
    intro hmem
    rw [(solr_found_iff store a.id).mpr (by simpa [storeIds] using hmem)] at hna
    cases hna
  · rintro ⟨⟨a, ha, rfl⟩, hx⟩
    refine ⟨a, ⟨ha, ?_⟩, rfl⟩
    rw [Bool.eq_false_iff]
    intro hc
    exact hx (by simpa [storeIds] using (solr_found_iff store a.id).mp hc)

/-- An empty deduplication result means every batch identifier is
already indexed. -/
theorem dedup_nil_covers (store data : List VideoRecord)
    (h : SolrRepository.deduplicate_solr store data = []) :
    ∀ r ∈ data, r.id ∈ storeIds store := by
  intro r hr
  have hp := List.filter_eq_nil_iff.mp h r hr
  rw [Bool.not_eq_true', Bool.not_eq_false] at hp
  exact (solr_found_iff store r.id).mp hp

/-- `JsonRepository.save` as a conditional on the filtered batch. -/
theorem json_save_eq_ite (store data : List VideoRecord) :
    JsonRepository.save store data
      = (if (data.filter (fun item => !(decide (item.id ∈ storeIds store)))).isEmpty
         then (store, false)
         else (store ++ data.filter
                (fun item => !(decide (item.id ∈ storeIds store))), true)) := rfl

/-- `SolrRepository.save` as a conditional on the deduplicated batch. -/
theorem solr_save_eq_ite (store data : List VideoRecord) :
    SolrRepository.save store data
      = (if (SolrRepository.deduplicate_solr store data).isEmpty
         then (store, false)
         else (SolrRepository.add store
                (SolrRepository.deduplicate_solr store data), true)) := rfl

/-- A Solr save contributes exactly the union of identifiers. -/
theorem mem_storeIds_solr_save (store data : List VideoRecord) (x : String) :
    x ∈ storeIds (SolrRepository.save store data).1
      ↔ x ∈ storeIds store ∨ x ∈ storeIds data := by
  rw [solr_save_eq_ite]
  cases hval : SolrRepository.deduplicate_solr store data with
  | nil =>
      simp only [hval, List.isEmpty_nil, if_pos]
      constructor
      · exact Or.inl
      · rintro (h | h)
        · exact h
        · rcases List.mem_map.mp h with ⟨r, hr, rfl⟩
          exact dedup_nil_covers store data hval r hr
  | cons y ys =>
      rw [if_neg (by simp)]
      show x ∈ storeIds (SolrRepository.add store (y :: ys)) ↔ _
      rw [← hval, mem_storeIds_add, mem_storeIds_dedup]
      by_cases hx : x ∈ storeIds store
      · simp [hx]
      · simp [hx]

/-- A Solr save preserves nodup identifiers when the batch has nodup
identifiers. -/
theorem nodup_storeIds_solr_save (store data : List VideoRecord)
    (hs : (storeIds store).Nodup) (hd : (storeIds data).Nodup) :
    (storeIds (SolrRepository.save store data).1).Nodup := by
  have hdn : (storeIds (SolrRepository.deduplicate_solr store data)).Nodup :=
    hd.sublist ((List.filter_sublist data).map _)
  rw [solr_save_eq_ite]
  cases hval : SolrRepository.deduplicate_solr store data with
  | nil => simpa using hs
  | cons y ys =>
      rw [if_neg (by simp)]
      show (storeIds (SolrRepository.add store (y :: ys))).Nodup
      rw [← hval]
      rw [solr_add_fresh _ store (hval ▸ hdn) ?_]
      · rw [storeIds_append, List.nodup_append]
        refine ⟨hs, hval ▸ hdn, ?_⟩
        intro x hxs hxd
        exact ((mem_storeIds_dedup store data x).mp hxd).2 hxs
      · intro doc hdoc hmem
        have hdm : doc.id ∈ storeIds (SolrRepository.deduplicate_solr store data) :=
          List.mem_map.mpr ⟨doc, hdoc, rfl⟩
        exact ((mem_storeIds_dedup store data doc.id).mp hdm).2 hmem

/-- A Solr save keeps every record already indexed. -/
theorem solr_save_keeps (store data : List VideoRecord) (r : VideoRecord)
    (h : r ∈ store) : r ∈ (SolrRepository.save store data).1 := by
  rw [solr_save_eq_ite]
  cases hval : SolrRepository.deduplicate_solr store data with
  | nil => simpa using h
  | cons y ys =>
      rw [if_neg (by simp)]
      show r ∈ SolrRepository.add store (y :: ys)
      rw [← hval]
      refine solr_add_keeps _ store r h ?_
      intro doc hdoc hde
      have hdm : doc.id ∈ storeIds (SolrRepository.deduplicate_solr store data) :=
        List.mem_map.mpr ⟨doc, hdoc, rfl⟩
      refine ((mem_storeIds_dedup store data doc.id).mp hdm).2 ?_
      rw [hde]
      exact List.mem_map.mpr ⟨r, h, rfl⟩

/-- After a JSON save, replaying the batch writes nothing. -/
theorem json_save_second (store data : List VideoRecord) :
    JsonRepository.save (JsonRepository.save store data).1 data
      = ((JsonRepository.save store data).1, false) := by
  have hfil : data.filter
      (fun item =>
        !(decide (item.id ∈ storeIds (JsonRepository.save store data).1))) = [] := by
    refine List.filter_eq_nil_iff.mpr ?_
    intro a ha
    simp [json_save_covers store data a ha]
  rw [json_save_eq_ite, hfil]
  simp

/-- After a Solr save, replaying the batch issues no add. -/
theorem solr_save_second (store data : List VideoRecord) :
    SolrRepository.save (SolrRepository.save store data).1 data
      = ((SolrRepository.save store data).1, false) := by
  have hded : SolrRepository.deduplicate_solr
      (SolrRepository.save store data).1 data = [] := by
    refine List.filter_eq_nil_iff.mpr ?_
    intro a ha
    have hf : SolrRepository.found (SolrRepository.save store data).1 a.id = true := by
      rw [solr_found_iff, mem_storeIds_solr_save]
      exact Or.inr (List.mem_map.mpr ⟨a, ha, rfl⟩)
    simp [hf]
  rw [solr_save_eq_ite, hded]
  simp

/-- Claim C1 counterexample: one `JsonRepository.save` call whose batch
holds two distinct records sharing the identifier `a` leaves the store
with two records of that identifier, so the stated store invariant fails
without an assumption on the batches. -/
theorem dedup_invariant_counterexample :
    storeIds (JsonRepository.save []
      [simpleRec "a" (some "t1"), simpleRec "a" (some "t2")]).1 = ["a", "a"] ∧
    simpleRec "a" (some "t1") ≠ simpleRec "a" (some "t2") ∧
    ¬ (storeIds (JsonRepository.save []
      [simpleRec "a" (some "t1"), simpleRec "a" (some "t2")]).1).Nodup := by
  decide

/-- Claim C1 amended: for both repository variants, provided every save
batch has pairwise-distinct identifiers, saves keep the identifier
column duplicate-free, a record already present is kept untouched by a
later save, and `save(B1); save(B2)` yields exactly the union of the
identifier sets with no duplicates. -/
theorem dedup_invariant (store b1 b2 : List VideoRecord)
    (hs : (storeIds store).Nodup) (h1 : (storeIds b1).Nodup)
    (h2 : (storeIds b2).Nodup) :
    ((storeIds (JsonRepository.save store b1).1).Nodup ∧
     (∀ r ∈ store, r ∈ (JsonRepository.save store b1).1) ∧
     (storeIds (JsonRepository.save (JsonRepository.save store b1).1 b2).1).Nodup ∧
     (∀ x, x ∈ storeIds (JsonRepository.save (JsonRepository.save store b1).1 b2).1
        ↔ x ∈ storeIds store ∨ x ∈ storeIds b1 ∨ x ∈ storeIds b2)) ∧
    ((storeIds (SolrRepository.save store b1).1).Nodup ∧
     (∀ r ∈ store, r ∈ (SolrRepository.save store b1).1) ∧
     (storeIds (SolrRepository.save (SolrRepository.save store b1).1 b2).1).Nodup ∧
     (∀ x, x ∈ storeIds (SolrRepository.save (SolrRepository.save store b1).1 b2).1
        ↔ x ∈ storeIds store ∨ x ∈ storeIds b1 ∨ x ∈ storeIds b2)) := by
  refine ⟨⟨nodup_storeIds_json_save store b1 hs h1,
          fun r hr => json_save_keeps store b1 r hr,
          nodup_storeIds_json_save _ b2 (nodup_storeIds_json_save store b1 hs h1) h2,
          fun x => ?_⟩,
         ⟨nodup_storeIds_solr_save store b1 hs h1,
          fun r hr => solr_save_keeps store b1 r hr,
          nodup_storeIds_solr_save _ b2 (nodup_storeIds_solr_save store b1 hs h1) h2,
          fun x => ?_⟩⟩
  · rw [mem_storeIds_json_save, mem_storeIds_json_save]
    exact or_assoc
  · rw [mem_storeIds_solr_save, mem_storeIds_solr_save]
    exact or_assoc

/-- Witness for the amended C1: concrete overlapping batches keep the
JSON snapshot duplicate-free and land the identifier `c` in the Solr
index. -/
theorem dedup_invariant_witness :
    (storeIds (JsonRepository.save (JsonRepository.save [] wb1).1 wb2).1).Nodup ∧
    ("c" ∈ storeIds (SolrRepository.save (SolrRepository.save [] wb1).1 wb2).1) := by
  have h := dedup_invariant [] wb1 wb2 (by decide) (by decide) (by decide)
  exact ⟨h.1.2.2.1, (h.2.2.2.2 "c").mpr (Or.inr (Or.inr (by decide)))⟩

/-- Claim C2: for every snapshot or index state and every batch, both
repository variants are idempotent — replaying the batch right after
saving it leaves the store unchanged and performs no write. -/
theorem save_idempotent (store data : List VideoRecord) :
    JsonRepository.save (JsonRepository.save store data).1 data
      = ((JsonRepository.save store data).1, false) ∧
    SolrRepository.save (SolrRepository.save store data).1 data
      = ((SolrRepository.save store data).1, false) :=
  ⟨json_save_second store data, solr_save_second store data⟩

/-- Mapping a fallible function over an appended list splits into the
two halves, failing as soon as either half fails. -/
theorem mapEx_append (f : RawEntry → Except Unit VideoRecord)
    (xs ys : List RawEntry) :
    mapEx f (xs ++ ys) =
      match mapEx f xs with
      | .error u => .error u
      | .ok a =>
          match mapEx f ys with
          | .error u => .error u
          | .ok b => .ok (a ++ b) := by
  induction xs with
  | nil =>
      simp only [List.nil_append, mapEx]
      cases mapEx f ys <;> rfl
  | cons e rest ih =>
      cases hfe : f e with
      | error u => simp [List.cons_append, mapEx, hfe]
      | ok v =>
          cases hre : mapEx f rest with
          | error u => simp [List.cons_append, mapEx, hfe, hre, ih]
          | ok vs =>
              cases hys : mapEx f ys with
              | error u => simp [List.cons_append, mapEx, hfe, hre, hys, ih]
              | ok bs => simp [List.cons_append, mapEx, hfe, hre, hys, ih]

/-- One entry-loop iteration selects exactly what the spec describes:
children of a playlist, the entry itself for a url, nothing otherwise. -/
theorem processOne_select (e : RawEntry) :
    processOne e = mapEx generate_view_object (specSelect e) := by
  unfold processOne specSelect
  by_cases hp : e.type_ = some "playlist"
  · have hu : ¬ (e.type_ = some "url") := by simp [hp]
    simp only [hp, if_pos, if_neg hu]
    cases mapEx generate_view_object e.entries <;> simp
  · by_cases hu : e.type_ = some "url"
    · simp only [if_neg hp, hu, if_pos]
      cases hge : generate_view_object e <;> simp [mapEx, hge]
    · simp [hp, hu, mapEx]

/-- The whole entry loop equals normalizing the spec-selected entries. -/
theorem processEntries_select (entries : List RawEntry) :
    processEntries entries = mapEx generate_view_object (specFlatten entries) := by
  induction entries with
  | nil => rfl
  | cons e rest ih =>
      simp only [processEntries, specFlatten, processOne_select, ih, mapEx_append]

/-- Claim C5: the extractor flattens `playlist`-typed entries one level,
takes `url`-typed entries as-is and ignores every other type — the loop
refines the spec selection — and the concrete listing of one playlist
with two nested url children plus one unrecognized entry yields exactly
the two records of the children. -/
theorem entry_type_filtering :
    (∀ entries : List RawEntry,
      processEntries entries = mapEx generate_view_object (specFlatten entries)) ∧
    processEntries demoListing = .ok [simpleRec "v1" none, simpleRec "v2" none] ∧
    [simpleRec "v1" none, simpleRec "v2" none].length = 2 :=
  ⟨processEntries_select, rfl, rfl⟩

/-- The thumbnail comprehension computes the spec projection. -/
theorem normalize_thumbnails_spec (thumbs : List ThumbDesc) :
    normalize_thumbnails (.list thumbs) = specThumbProjection thumbs := by
  induction thumbs with
  | nil => rfl
  | cons t rest ih =>
      cases ht : t.url with
      | none =>
          simp only [normalize_thumbnails, List.filterMap_cons, ht,
            specThumbProjection]
          exact ih
      | some u =>
          simp only [normalize_thumbnails, List.filterMap_cons, ht,
            specThumbProjection]
          rw [← ih]
          rfl

/-- Claim C6: normalization is total on entries carrying the mandatory
identifier — the view object is produced without failure, every declared
field is present, absent raw fields pass through as the `none` sentinel,
a thumbnails list projects to the ordered `url` sub-fields dropping
descriptors without one, and a non-list thumbnails value normalizes to
the empty sequence. -/
theorem normalize_totality (e : RawEntry) (i : String) (h : e.id = some i) :
    (generate_view_object e
      = .ok { id := sanitize_solr_query i
              url := e.url
              title := e.title
              description := e.description
              view_count := e.view_count
              duration := e.duration
              thumbnails := normalize_thumbnails e.thumbnails
              release_timestamp := e.release_timestamp
              channel_is_verified := e.channel_is_verified
              live_status := e.live_status
              channelId := none
              channelTitle := none
              userEmail := none }) ∧
    (∀ thumbs : List ThumbDesc,
      normalize_thumbnails (.list thumbs) = specThumbProjection thumbs) ∧
    normalize_thumbnails .absent = [] ∧
    normalize_thumbnails .nonList = [] := by
  refine ⟨?_, normalize_thumbnails_spec, rfl, rfl⟩
  unfold generate_view_object
  rw [h]

/-- Witness for C6: the hostile entry normalizes successfully, the
identifier is quoted, the missing fields are the sentinel and the
url-less descriptor is dropped. -/
theorem normalize_totality_witness :
    generate_view_object hostileEntry
      = .ok { id := "\"-x\""
              url := none
              title := none
              description := none
              view_count := none
              duration := none
              thumbnails := ["u1", "u2"]
              release_timestamp := none
              channel_is_verified := none
              live_status := none
              channelId := none
              channelTitle := none
              userEmail := none } :=
  (normalize_totality hostileEntry "-x" rfl).1

/-- Claim C3: an entry written by `save_to_cache` at time `t` is returned
by `load_from_cache` at time `now` if and only if fewer than 8 hours
(28800 seconds) have elapsed; once 8 or more hours have elapsed the load
behaves as absent while the stale entry stays in place, and the next put
for the same identifier overwrites it. -/
theorem cache_freshness {α : Type} (fs : Fs α) (t : Int) (identifier : String)
    (d : α) (now : Int) :
    (save_to_cache fs t identifier d) (get_cache_file_path identifier) = .entry t d ∧
    (now - t < CACHE_EXPIRATION_SECONDS →
      load_from_cache (save_to_cache fs t identifier d) now identifier = .ok (some d)) ∧
    (CACHE_EXPIRATION_SECONDS ≤ now - t →
      load_from_cache (save_to_cache fs t identifier d) now identifier = .ok none) ∧
    (∀ (t2 : Int) (d2 : α),
      (save_to_cache (save_to_cache fs t identifier d) t2 identifier d2)
        (get_cache_file_path identifier) = .entry t2 d2) := by
  refine ⟨by simp [save_to_cache], ?_, ?_, ?_⟩
  · intro h
    simp [load_from_cache, save_to_cache, h]
  · intro h
    simp [load_from_cache, save_to_cache, not_lt.mpr h]
  · intro t2 d2
    simp [save_to_cache]

/-- Witness for C3 at concrete inputs: a fresh read (100 seconds after
the put) returns the payload, and a read exactly 28800 seconds after the
put behaves as absent. -/
theorem cache_freshness_witness :
    load_from_cache (save_to_cache emptyFs 0 "chan" demoInfo) 100 "chan"
      = .ok (some demoInfo) ∧
    load_from_cache (save_to_cache emptyFs 0 "chan" demoInfo) 28800 "chan"
      = .ok none :=
  ⟨(cache_freshness emptyFs 0 "chan" demoInfo 100).2.1 (by decide),
   (cache_freshness emptyFs 0 "chan" demoInfo 28800).2.2.1 (by decide)⟩

/-- Claim C4 (code bug): `load_from_cache` does not catch the
deserialization failure of a corrupt cache entry — the exception
propagates to the caller instead of the entry being treated as absent. -/
theorem corrupt_entry_propagates {α : Type} (fs : Fs α) (now : Int)
    (identifier : String)
    (h : fs (get_cache_file_path identifier) = .corrupt) :
    load_from_cache fs now identifier = .error () := by
  simp [load_from_cache, h]

/-- Witness for C4 at a concrete corrupt cache directory. -/
theorem corrupt_entry_propagates_witness :
    load_from_cache corruptFs 0 "chan" = .error () :=
  corrupt_entry_propagates corruptFs 0 "chan" rfl

/-- Claim C8: driven by a page sequence whose third page carries no
continuation cursor, the subscription enumerator makes exactly three
list calls and stops, for every page content, fetcher, user, time and
starting state. -/
theorem pagination_stops_after_three (fetch : String → Except Unit InfoDict)
    (user_email : String) (now : Int) (i1 i2 i3 : List Subscription)
    (t1 t2 : String) (sf : List VideoRecord × Fs InfoDict) :
    (extract_subscriptions fetch user_email now
      [⟨i1, some t1⟩, ⟨i2, some t2⟩, ⟨i3, none⟩] sf).1 = 3 := by
  simp [extract_subscriptions]

/-- Claim C9 counterexample: with neither flag set, the trace of `cli`
authenticates against the identity provider before aborting, so the run
does not abort before contacting a remote service; and with both flags
set (a violation of "exactly one"), the run does not abort at all — it
proceeds with the Solr repository. -/
theorem cli_flag_validation_counterexample :
    cli none false = [CliEvent.authenticate, CliEvent.abortMissingFlags] ∧
    CliEvent.abortMissingFlags ∉ cli (some "out.json") true ∧
    CliEvent.runExtraction ∈ cli (some "out.json") true := by
  decide

/-- Claim C9 amended: with neither flag truthy the run aborts — no
repository is selected and no extraction runs — but only after the
authentication step has contacted the identity provider; when `--solr`
is set the run never aborts, the Solr repository taking precedence even
if `--output` is also given. -/
theorem cli_flag_validation (output : Option String) (solr : Bool) :
    (solr = false → output = none →
      cli output solr = [CliEvent.authenticate, CliEvent.abortMissingFlags]) ∧
    (solr = true →
      cli output solr
        = [CliEvent.authenticate, CliEvent.useSolrRepo, CliEvent.runExtraction]) := by
  constructor
  · intro hs ho
    subst hs; subst ho
    rfl
  · intro hs
    subst hs
    rfl

/-- Witness for the amended C9 at concrete flag values. -/
theorem cli_flag_validation_witness :
    cli none false = [CliEvent.authenticate, CliEvent.abortMissingFlags] ∧
    cli (some "data.json") true
      = [CliEvent.authenticate, CliEvent.useSolrRepo, CliEvent.runExtraction] :=
  ⟨(cli_flag_validation none false).1 rfl rfl,
   (cli_flag_validation (some "data.json") true).2 rfl⟩

/-- Claim C10: cache-key sanitization is not injective — the distinct
identifiers `a/b` and `a:b` map to the same cache file path, and a put
under the first is observed by a fresh get under the second. -/
theorem cache_key_collision :
    get_cache_file_path "a/b" = get_cache_file_path "a:b" ∧
    ("a/b" : String) ≠ "a:b" ∧
    load_from_cache (save_to_cache emptyFs 0 "a/b" demoInfo) 0 "a:b"
      = .ok (some demoInfo) := by
  refine ⟨by decide, by decide, ?_⟩
  rfl

/-- Claim C7: a failing extraction call is contained — with no cached
entry, a raising fetch makes `extract_videos` return zero videos and
leave the cache untouched instead of propagating; and in the concrete
scenario where the enumerator yields channels A, B, C and extraction
for B raises, the persisted record set holds exactly the videos of A
and C. -/
theorem channel_failure_contained :
    (∀ (fetch : String → Except Unit InfoDict) (fs : Fs InfoDict) (now : Int)
       (url : String),
      fs (get_cache_file_path url) = .absent → fetch url = .error () →
      extract_videos fetch fs now url = ([], fs)) ∧
    storeIds (extract_subscriptions demoFetch "user@example.com" 0
      [⟨[subA, subB, subC], none⟩] ([], emptyFs)).2.1 = ["vidA", "vidC"] := by
  constructor
  · intro fetch fs now url h1 h2
    simp [extract_videos, load_from_cache, h1, h2]
  · decide

/-- Witness for C7: the failing channel B concretely yields zero videos
and an unchanged cache. -/
theorem channel_failure_contained_witness :
    extract_videos demoFetch emptyFs 0 (channel_url_of "chB") = ([], emptyFs) :=
  channel_failure_contained.1 demoFetch emptyFs 0 (channel_url_of "chB") rfl rfl

end VideoExtractor
